import Mathlib

/-! # Verification of the autocut trading engine

Shallow embedding of the tick controllers of `backend/trading_engine.py`
and of the `modify_position` request builder of `backend/mt5_client.py`.
Prices, balances, lot sizes and timestamps (in seconds) are modelled as
rationals; Python dicts keyed by ticket are modelled as association lists;
calls that can raise are modelled with `Except`.
-/

namespace Autocut

/-- Round to the nearest integer, ties to even, the rounding used by
Python's built-in `round`. -/
def roundHalfEven (x : ℚ) : ℤ :=
  if Int.fract x < 1 / 2 then ⌊x⌋
  else if 1 / 2 < Int.fract x then ⌊x⌋ + 1
  else if 2 ∣ ⌊x⌋ then ⌊x⌋ else ⌊x⌋ + 1

/-- Python `round(x, 2)`: round to two decimal places
(trading_engine.py line 95 rounds the lot to standard lot precision). -/
def round2 (x : ℚ) : ℚ := (roundHalfEven (100 * x) : ℚ) / 100

theorem le_roundHalfEven (x : ℚ) : ⌊x⌋ ≤ roundHalfEven x := by
  unfold roundHalfEven
  split_ifs <;> omega

theorem roundHalfEven_le (x : ℚ) : roundHalfEven x ≤ ⌊x⌋ + 1 := by
  unfold roundHalfEven
  split_ifs <;> omega

theorem roundHalfEven_mono {x y : ℚ} (h : x ≤ y) :
    roundHalfEven x ≤ roundHalfEven y := by
  rcases lt_or_eq_of_le (Int.floor_mono h) with hf | hf
  · calc roundHalfEven x ≤ ⌊x⌋ + 1 := roundHalfEven_le x
      _ ≤ ⌊y⌋ := by omega
      _ ≤ roundHalfEven y := le_roundHalfEven y
  · have hfr : Int.fract x ≤ Int.fract y := by
      unfold Int.fract
      rw [hf]
      linarith
    unfold roundHalfEven
    rw [hf]
    split_ifs <;> first | omega | linarith

theorem roundHalfEven_intCast (k : ℤ) : roundHalfEven (k : ℚ) = k := by
  unfold roundHalfEven
  have h0 : Int.fract (k : ℚ) = 0 := Int.fract_intCast k
  rw [h0, Int.floor_intCast]
  norm_num

theorem round2_mono {x y : ℚ} (h : x ≤ y) : round2 x ≤ round2 y := by
  unfold round2
  have h100 : (100 : ℚ) * x ≤ 100 * y := by linarith
  have := roundHalfEven_mono h100
  have hc : ((roundHalfEven (100 * x) : ℤ) : ℚ) ≤ ((roundHalfEven (100 * y) : ℤ) : ℚ) := by
    exact_mod_cast this
  linarith

theorem round2_cent (k : ℤ) : round2 ((k : ℚ) / 100) = (k : ℚ) / 100 := by
  unfold round2
  have h : (100 : ℚ) * ((k : ℚ) / 100) = (k : ℚ) := by
    field_simp
  rw [h, roundHalfEven_intCast]

/-- Number of times the balance has doubled (trading_engine.py lines 74-86):
for `0 < initial ≤ current`, Python computes `int(math.log2(current / initial))`,
the floor of the base-2 logarithm of the ratio; it is realised here as
`Nat.log 2 ⌊ratio⌋`, which agrees because `2 ^ k ≤ ratio ↔ 2 ^ k ≤ ⌊ratio⌋`.
In every other case the code uses zero doublings. -/
def timesDoubled (initial current : ℚ) : ℕ :=
  if 0 < initial ∧ initial ≤ current then Nat.log 2 (⌊current / initial⌋).toNat else 0

/-- Pure core of `_get_dynamic_lot` (trading_engine.py lines 60-104):
`base` is `config.trading.lot_size`, `initial` the tracker's initial balance,
`current` the account balance. -/
def dynamic_lot (base initial current : ℚ) : ℚ :=
  if initial ≤ 0 then base
  else round2 (base * (13 / 10) ^ timesDoubled initial current)

/-- Shallow embedding of `_get_dynamic_lot` with its `try/except`
(trading_engine.py lines 60-104): `tracker` models reading
`get_profit_tracker().initial_balance`, `account` models `get_account_info()`
(`.error` means the call raised; `.ok none` means the returned dict carries no
balance key, so `account.get('balance', initial_balance)` falls back to the
initial balance). Any raising step makes the `except` clause return the
configured base lot. -/
def get_dynamic_lot (base : ℚ) (tracker : Except Unit ℚ)
    (account : Except Unit (Option ℚ)) : ℚ :=
  match tracker with
  | .error _ => base
  | .ok initial =>
    if initial ≤ 0 then base
    else
      match account with
      | .error _ => base
      | .ok bal => round2 (base * (13 / 10) ^ timesDoubled initial (bal.getD initial))

theorem timesDoubled_bounds {initial current : ℚ} (hi : 0 < initial)
    (hc : initial ≤ current) :
    (2 : ℚ) ^ timesDoubled initial current ≤ current / initial ∧
      current / initial < 2 ^ (timesDoubled initial current + 1) := by
  have hratio : (1 : ℚ) ≤ current / initial := (one_le_div hi).mpr hc
  have hfl : (1 : ℤ) ≤ ⌊current / initial⌋ := by
    rwa [Int.le_floor, Int.cast_one]
  set n : ℕ := (⌊current / initial⌋).toNat with hn
  have hncast : ((n : ℤ) : ℚ) = ((⌊current / initial⌋ : ℤ) : ℚ) := by
    rw [hn, Int.toNat_of_nonneg (by omega)]
  have hne : n ≠ 0 := by
    have : (1 : ℤ) ≤ (n : ℤ) := by rw [hn, Int.toNat_of_nonneg (by omega)]; exact hfl
    omega
  have htd : timesDoubled initial current = Nat.log 2 n := by
    unfold timesDoubled
    rw [if_pos ⟨hi, hc⟩]
  constructor
  · have hlow : 2 ^ Nat.log 2 n ≤ n := Nat.pow_log_le_self 2 hne
    have hlowq : ((2 ^ Nat.log 2 n : ℕ) : ℚ) ≤ ((n : ℕ) : ℚ) := by exact_mod_cast hlow
    have hfloor : ((⌊current / initial⌋ : ℤ) : ℚ) ≤ current / initial :=
      Int.floor_le _
    rw [htd]
    push_cast at hlowq
    push_cast at hncast
    linarith
  · have hup : n < 2 ^ (Nat.log 2 n + 1) := Nat.lt_pow_succ_log_self (by norm_num) n
    have hupq : ((n : ℕ) : ℚ) + 1 ≤ ((2 ^ (Nat.log 2 n + 1) : ℕ) : ℚ) := by
      exact_mod_cast hup
    have hfloor : current / initial < ((⌊current / initial⌋ : ℤ) : ℚ) + 1 :=
      Int.lt_floor_add_one _
    rw [htd]
    push_cast at hupq
    push_cast at hncast
    linarith

theorem timesDoubled_mono (initial : ℚ) {c1 c2 : ℚ} (h : c1 ≤ c2) :
    timesDoubled initial c1 ≤ timesDoubled initial c2 := by
  unfold timesDoubled
  split_ifs with h1 h2
  · have hdiv : c1 / initial ≤ c2 / initial := by
      apply div_le_div_of_nonneg_right h
      exact h1.1.le
    have hfl : ⌊c1 / initial⌋ ≤ ⌊c2 / initial⌋ := Int.floor_mono hdiv
    exact Nat.log_mono_right (by omega)
  · exact absurd ⟨h1.1, le_trans h1.2 h⟩ h2
  · exact Nat.zero_le _
  · exact Nat.zero_le _

/-- Order or position direction (the `"BUY"`/`"SELL"` strings of the code). -/
inductive Side where
  | BUY : Side
  | SELL : Side
deriving DecidableEq, Repr

/-- One open position as returned by `MT5Client.get_positions`
(mt5_client.py lines 158-173), restricted to the fields the engine's
controllers read. -/
structure Position where
  ticket : ℕ
  side : Side
  open_price : ℚ
  sl : ℚ
  tp : ℚ
  profit : ℚ
deriving DecidableEq, Repr

/-- A live quote as returned by `get_symbol_price` / intended for the
entry clamp fetch. -/
structure Quote where
  bid : ℚ
  ask : ℚ
deriving DecidableEq, Repr

/-- Parsed value of `result.get("decision", "WAIT").upper()`
(trading_engine.py line 276): any string other than `"BUY"`/`"SELL"` behaves
exactly like `WAIT`, so it is folded into that constructor. -/
inductive Decision where
  | BUY : Decision
  | SELL : Decision
  | WAIT : Decision
deriving DecidableEq, Repr

def Side.toDecision : Side → Decision
  | .BUY => .BUY
  | .SELL => .SELL

/-- A non-error reply of the AI decision service for entry analysis
(fields read at trading_engine.py lines 276-281). -/
structure EntryDecision where
  decision : Decision
  sl : Option ℚ
  tp : Option ℚ
  confidence : ℚ
deriving DecidableEq, Repr

/-- The engine timers touched by the entry path: `_last_sl_hit` and
`_last_entry_check` (trading_engine.py lines 30 and 37), as seconds. -/
structure EngineTimers where
  last_sl_hit : Option ℚ
  last_entry_check : Option ℚ
deriving DecidableEq, Repr

/-- Cooldown length `_sl_cooldown_minutes` (trading_engine.py line 38). -/
def sl_cooldown_minutes : ℚ := 5

/-- The arguments handed to `MT5Client.place_order` by the engine. -/
structure OrderRequest where
  order_type : Decision
  volume : ℚ
  sl : ℚ
  tp : Option ℚ
deriving DecidableEq, Repr

/-- Outcome of one `_run_entry` invocation: the updated timers, whether the
decision service was consulted, and the order request passed to
`place_order` (if any). -/
structure EntryResult where
  timers : EngineTimers
  ai_called : Bool
  order : Option OrderRequest
deriving DecidableEq, Repr

/-- Stop-loss clamp of `_run_entry` (trading_engine.py lines 290-301): for a
BUY the maximum-risk SL is `ask - 6`, for a SELL `bid + 6`; a missing SL or
one beyond the cap is replaced by the cap value. -/
def clamp_sl (d : Decision) (q : Quote) (sl : Option ℚ) : ℚ :=
  match d with
  | .BUY =>
    let max_sl := q.ask - 6
    match sl with
    | none => max_sl
    | some s => if s < max_sl then max_sl else s
  | _ =>
    let max_sl := q.bid + 6
    match sl with
    | none => max_sl
    | some s => if max_sl < s then max_sl else s

/-- Body of `_run_entry` after the cooldown gate (trading_engine.py lines
247-335). `ai` models `ai_brain.analyze_entry` (`.error` = the reply dict
contains an `"error"` key, the early return at lines 272-274); `price_fetch`
models the `self.mt5_client.get_price(symbol)` call at line 289 (`.error` =
the call raised, so control jumps to the `except` at line 337 and the
last-check update at line 335 is skipped). The order request records the
arguments of `place_order`; the update of `_last_entry_check` at line 335
does not depend on the placement result. -/
def run_entry_decide (now : ℚ) (t : EngineTimers) (ai : Except Unit EntryDecision)
    (price_fetch : Except Unit Quote) (lot : ℚ) : EntryResult :=
  match ai with
  | .error _ => { timers := t, ai_called := true, order := none }
  | .ok d =>
    if (d.decision = .BUY ∨ d.decision = .SELL) ∧ 60 ≤ d.confidence then
      match price_fetch with
      | .error _ => { timers := t, ai_called := true, order := none }
      | .ok q =>
        { timers := { t with last_entry_check := some now },
          ai_called := true,
          order := some { order_type := d.decision, volume := lot,
                          sl := clamp_sl d.decision q d.sl, tp := d.tp } }
    else
      { timers := { t with last_entry_check := some now }, ai_called := true,
        order := none }

/-- Shallow embedding of `_run_entry` (trading_engine.py lines 231-338),
cooldown gate included (lines 234-245): when `_last_sl_hit` is set and fewer
than `_sl_cooldown_minutes * 60` seconds have elapsed, the controller
returns at once, and in particular the decision service is not consulted;
once the window has elapsed the gate clears `_last_sl_hit` and the normal
body runs. -/
def run_entry (now : ℚ) (t : EngineTimers) (ai : Except Unit EntryDecision)
    (price_fetch : Except Unit Quote) (lot : ℚ) : EntryResult :=
  match t.last_sl_hit with
  | some t0 =>
    if now - t0 < sl_cooldown_minutes * 60 then
      { timers := t, ai_called := false, order := none }
    else
      run_entry_decide now { t with last_sl_hit := none } ai price_fetch lot
  | none => run_entry_decide now t ai price_fetch lot

/-- The engine's quote fetch for the SL clamp: trading_engine.py line 289
calls `self.mt5_client.get_price(symbol)`, but `MT5Client`
(mt5_client.py) defines no method named `get_price` (the quote method is
`get_symbol_price`), so the attribute lookup raises `AttributeError` on
every call; the call therefore always errors. -/
def mt5_get_price : Except Unit Quote := .error ()

/-- Expected position count of the DCA controller (trading_engine.py lines
449-473): signed pips from the first position's entry to the market price on
its side, absolute value, one extra position per full 20 pips, capped at
`max_positions`. Python's `int()` truncation equals the floor on the
non-negative `pips_moved`. -/
def dca_expected (max_positions : ℕ) (first : Position) (q : Quote) : ℕ :=
  let current := match first.side with | .BUY => q.bid | .SELL => q.ask
  let pips_profit := match first.side with
    | .BUY => (current - first.open_price) * 10
    | .SELL => (first.open_price - current) * 10
  let pips_moved := |pips_profit|
  let expected := if 20 ≤ pips_moved then 1 + (⌊pips_moved / 20⌋).toNat else 1
  min expected max_positions

/-- Shallow embedding of `_check_dca_averaging` (trading_engine.py lines
446-509), returning the order request passed to `place_order` when one is
issued. On an empty list `positions[0]` raises `IndexError`, which the
`except` at line 511 swallows, so no order results. -/
def check_dca_averaging (max_positions : ℕ) (lot : ℚ) (positions : List Position)
    (q : Quote) : Option OrderRequest :=
  match positions with
  | [] => none
  | first :: _ =>
    if positions.length < dca_expected max_positions first q then
      some { order_type := first.side.toDecision, volume := lot,
             sl := first.sl, tp := some first.tp }
    else none

/-- Per-position body of `_check_auto_bep` (trading_engine.py lines 519-544),
with the broker modification applied to the position: when the profit in pips
reaches the trigger and the stop-loss has not yet been moved to entry in the
profitable direction, the stop-loss becomes the entry price (take-profit
kept). -/
def bep_update (bep_pips : ℚ) (q : Quote) (p : Position) : Position :=
  match p.side with
  | .BUY =>
    if bep_pips ≤ (q.bid - p.open_price) * 10 ∧ p.sl < p.open_price then
      { p with sl := p.open_price }
    else p
  | .SELL =>
    if bep_pips ≤ (p.open_price - q.ask) * 10 ∧ p.open_price < p.sl then
      { p with sl := p.open_price }
    else p

/-- Shallow embedding of `_check_auto_bep` (trading_engine.py lines 514-569)
as the position list it leaves behind when every issued modification
succeeds. -/
def check_auto_bep (bep_pips : ℚ) (q : Quote) (positions : List Position) :
    List Position :=
  positions.map (bep_update bep_pips q)

/-- Close cause inferred by the detector (trading_engine.py lines 591-595). -/
inductive CloseType where
  | TP_HIT : CloseType
  | SL_HIT : CloseType
deriving DecidableEq, Repr

/-- One close event emitted by `_check_closed_positions`. -/
structure CloseEvent where
  ticket : ℕ
  profit : ℚ
  close_type : CloseType
deriving DecidableEq, Repr

/-- Assignment `d[k] = v` on a Python dict modelled as an association list:
replace the value at an existing key in place, otherwise append. -/
def dict_insert : List (ℕ × Position) → ℕ → Position → List (ℕ × Position)
  | [], k, v => [(k, v)]
  | kv :: rest, k, v =>
    if kv.1 = k then (k, v) :: rest else kv :: dict_insert rest k v

/-- Lookup on the association-list model of a Python dict. -/
def dict_lookup (m : List (ℕ × Position)) (k : ℕ) : Option Position :=
  (m.find? (fun kv => kv.1 = k)).map Prod.snd

/-- Result of one `_check_closed_positions` run: the emitted close events,
the possibly re-armed `_last_sl_hit`, and the retained
`_previous_positions` map. -/
structure CloseCheckResult where
  events : List CloseEvent
  last_sl_hit : Option ℚ
  previous_positions : List (ℕ × Position)
deriving DecidableEq, Repr

/-- Shallow embedding of `_check_closed_positions` (trading_engine.py lines
571-630): every previously tracked ticket absent from the current snapshot
yields a close event classified by the sign of its last known profit
(`TP_HIT` when the profit is non-negative, else `SL_HIT`); an `SL_HIT` event
arms `_last_sl_hit` with the current time; the closed entries are deleted
and every current position is then recorded under its ticket. -/
def check_closed_positions (now : ℚ) (last_sl_hit : Option ℚ)
    (prev : List (ℕ × Position)) (cur : List Position) : CloseCheckResult :=
  let cur_tickets := cur.map Position.ticket
  let closed := prev.filter (fun kv => decide (kv.1 ∉ cur_tickets))
  let events := closed.map (fun kv =>
    { ticket := kv.1, profit := kv.2.profit,
      close_type := if 0 ≤ kv.2.profit then CloseType.TP_HIT else CloseType.SL_HIT })
  let new_last := if events.any (fun e => e.close_type = CloseType.SL_HIT)
    then some now else last_sl_hit
  let kept := prev.filter (fun kv => decide (kv.1 ∈ cur_tickets))
  let final := cur.foldl (fun m p => dict_insert m p.ticket p) kept
  { events := events, last_sl_hit := new_last, previous_positions := final }

/-- Decision of one guardian AI consultation, restricted to its effect on the
open-position count (trading_engine.py lines 370-442): `MODIFY` covers
`MODIFY_SL`/`MODIFY_TP`, `HOLD` covers `HOLD` and service errors. -/
inductive GuardianAction where
  | HOLD : GuardianAction
  | MODIFY : GuardianAction
  | CLOSE : GuardianAction
  | ADD_DCA : GuardianAction
deriving DecidableEq, Repr

/-- Count effect of `_run_guardian` on one position (trading_engine.py lines
391-442), with broker calls succeeding: `ADD_DCA` re-fetches the live
position count and adds one position only below `max_positions` (lines
405-407); `CLOSE` removes one. -/
def guardian_count_step (max_positions : ℕ) (live : ℕ) (a : GuardianAction) : ℕ :=
  match a with
  | .ADD_DCA => if live < max_positions then live + 1 else live
  | .CLOSE => live - 1
  | _ => live

/-- Open-position count after the position-adding part of one `_tick`
(trading_engine.py lines 215-229), starting from the snapshot fetched at
line 194 and assuming placed orders fill. The guardian runs once per
snapshot position when due (lines 216-219), each consultation deciding one
`GuardianAction` and checking a freshly fetched count; the DCA controller
then runs, but its gate at line 222 and its internal count at line 476 both
use the length of the tick-start `positions` snapshot, not the live count. -/
def tick_position_count (max_positions : ℕ) (snapshot : List Position) (q : Quote)
    (guardian_due : Bool) (guardian_actions : List GuardianAction) (lot : ℚ) : ℕ :=
  let n := snapshot.length
  let after_guardian :=
    if guardian_due ∧ 0 < n then
      guardian_actions.foldl (guardian_count_step max_positions) n
    else n
  if 0 < n ∧ n < max_positions then
    after_guardian +
      (if (check_dca_averaging max_positions lot snapshot q).isSome then 1 else 0)
  else after_guardian

/-- Python coalescing `x if x else cur` on an optional float
(mt5_client.py lines 299-300): `None` and `0.0` are falsy, so both fall
back to the position's current value. -/
def py_or (x : Option ℚ) (cur : ℚ) : ℚ :=
  match x with
  | none => cur
  | some v => if v = 0 then cur else v

/-- The `(sl, tp)` pair placed in the outgoing `TRADE_ACTION_SLTP` request by
`MT5Client.modify_position` for a found position (mt5_client.py lines
295-301). -/
def modify_position_request (sl tp : Option ℚ) (pos : Position) : ℚ × ℚ :=
  (py_or sl pos.sl, py_or tp pos.tp)

theorem dict_lookup_nil (j : ℕ) : dict_lookup [] j = none := rfl

theorem dict_lookup_cons (kv : ℕ × Position) (rest : List (ℕ × Position)) (j : ℕ) :
    dict_lookup (kv :: rest) j =
      if kv.1 = j then some kv.2 else dict_lookup rest j := by
  by_cases h : kv.1 = j
  · simp [dict_lookup, List.find?_cons_of_pos, h]
  · simp [dict_lookup, List.find?_cons_of_neg, h]

theorem dict_lookup_insert (m : List (ℕ × Position)) (k : ℕ) (v : Position) (j : ℕ) :
    dict_lookup (dict_insert m k v) j = if j = k then some v else dict_lookup m j := by
  induction m with
  | nil =>
    simp only [dict_insert]
    rw [dict_lookup_cons, dict_lookup_nil]
    by_cases h : j = k
    · rw [if_pos (show (k, v).1 = j from h.symm), if_pos h]
    · rw [if_neg (show ¬(k, v).1 = j from fun hh => h hh.symm), if_neg h]
  | cons kv rest ih =>
    simp only [dict_insert]
    by_cases hk : kv.1 = k
    · rw [if_pos hk, dict_lookup_cons, dict_lookup_cons]
      by_cases h : j = k
      · rw [if_pos (show (k, v).1 = j from h.symm), if_pos h]
      · rw [if_neg (show ¬(k, v).1 = j from fun hh => h hh.symm), if_neg h,
          if_neg (show ¬kv.1 = j from fun hh => h (hh.symm.trans hk))]
    · rw [if_neg hk, dict_lookup_cons, dict_lookup_cons, ih]
      by_cases hkvj : kv.1 = j
      · have hjk : ¬j = k := fun hh => hk (hkvj.trans hh)
        rw [if_pos hkvj, if_neg hjk, if_pos hkvj]
      · rw [if_neg hkvj, if_neg hkvj]

theorem dict_lookup_foldl_insert (cur : List Position) (m : List (ℕ × Position))
    (k : ℕ) (hnd : (cur.map Position.ticket).Nodup) :
    dict_lookup (cur.foldl (fun acc p => dict_insert acc p.ticket p) m) k =
      match cur.find? (fun p => p.ticket = k) with
      | some p => some p
      | none => dict_lookup m k := by
  induction cur generalizing m with
  | nil => simp
  | cons p rest ih =>
    have hmem : p.ticket ∉ rest.map Position.ticket := by
      simp only [List.map_cons, List.nodup_cons] at hnd
      exact hnd.1
    have hnd' : (rest.map Position.ticket).Nodup := by
      simp only [List.map_cons, List.nodup_cons] at hnd
      exact hnd.2
    simp only [List.foldl_cons]
    rw [ih _ hnd']
    by_cases hp : p.ticket = k
    · have hrest : rest.find? (fun q => decide (q.ticket = k)) = none := by
        apply List.find?_eq_none.mpr
        intro q hq
        simp only [decide_eq_true_eq]
        intro hqk
        exact hmem (by rw [hp, ← hqk]; exact List.mem_map_of_mem Position.ticket hq)
      rw [List.find?_cons_of_pos _ (by simp [hp]), hrest]
      simp [dict_lookup_insert, hp.symm]
    · rw [List.find?_cons_of_neg _ (by simp [hp])]
      cases hfind : rest.find? (fun q => decide (q.ticket = k)) with
      | some q => simp [hfind]
      | none =>
        simp only [hfind]
        rw [dict_lookup_insert]
        exact if_neg (fun hh : k = p.ticket => hp hh.symm)

/-- C5: for every previous-snapshot map `P` and current position list `C`
with distinct tickets, `_check_closed_positions` reports as closed exactly
the tickets of `P` absent from `C`, classifies each closed ticket as
`TP_HIT` when its last known profit is non-negative and `SL_HIT` otherwise,
and afterwards its retained map holds exactly the positions of `C`, each
current ticket recorded with its current data. -/
theorem claim_C5 (now : ℚ) (ls : Option ℚ) (prev : List (ℕ × Position))
    (cur : List Position) (hnd : (cur.map Position.ticket).Nodup) :
    (∀ t : ℕ, (∃ e ∈ (check_closed_positions now ls prev cur).events, e.ticket = t) ↔
        ((∃ kv ∈ prev, kv.1 = t) ∧ ∀ p ∈ cur, p.ticket ≠ t)) ∧
      (∀ e ∈ (check_closed_positions now ls prev cur).events,
        (e.close_type = CloseType.TP_HIT ↔ 0 ≤ e.profit) ∧
          ∃ kv ∈ prev, kv.1 = e.ticket ∧ kv.2.profit = e.profit) ∧
      (∀ k : ℕ, dict_lookup (check_closed_positions now ls prev cur).previous_positions k
        = cur.find? (fun p => p.ticket = k)) := by
  refine ⟨?_, ?_, ?_⟩
  · intro t
    simp only [check_closed_positions]
    constructor
    · rintro ⟨e, he, ht⟩
      rcases List.mem_map.mp he with ⟨kv, hkvc, rfl⟩
      rcases List.mem_filter.mp hkvc with ⟨hkv, hdec⟩
      have hnotin : kv.1 ∉ cur.map Position.ticket := of_decide_eq_true hdec
      refine ⟨⟨kv, hkv, ht⟩, ?_⟩
      intro p hp hpt
      exact hnotin (List.mem_map.mpr ⟨p, hp, hpt.trans ht.symm⟩)
    · rintro ⟨⟨kv, hkv, rfl⟩, hall⟩
      refine ⟨_, List.mem_map.mpr
        ⟨kv, List.mem_filter.mpr ⟨hkv, decide_eq_true ?_⟩, rfl⟩, rfl⟩
      intro hmem
      rcases List.mem_map.mp hmem with ⟨p, hp, hpt⟩
      exact hall p hp hpt
  · intro e he
    simp only [check_closed_positions] at he
    rcases List.mem_map.mp he with ⟨kv, hkvc, rfl⟩
    have hkv := (List.mem_filter.mp hkvc).1
    refine ⟨?_, ⟨kv, hkv, rfl, rfl⟩⟩
    by_cases hpr : 0 ≤ kv.2.profit
    · simp [hpr]
    · simp [hpr]
  · intro k
    simp only [check_closed_positions]
    cases hfind : cur.find? (fun p => p.ticket = k) with
    | some p =>
      rw [dict_lookup_foldl_insert _ _ _ hnd, hfind]
    | none =>
      rw [dict_lookup_foldl_insert _ _ _ hnd, hfind]
      have hnone : ∀ p ∈ cur, ¬p.ticket = k := by
        intro p hp
        have := List.find?_eq_none.mp hfind p hp
        simpa using this
      have hkept : (prev.filter
          (fun kv => decide (kv.1 ∈ cur.map Position.ticket))).find?
          (fun kv => kv.1 = k) = none := by
        apply List.find?_eq_none.mpr
        intro kv hkv
        simp only [decide_eq_true_eq]
        intro hkvk
        rcases List.mem_filter.mp hkv with ⟨_, hin⟩
        rcases List.mem_map.mp (by simpa using hin) with ⟨p, hp, hpt⟩
        exact hnone p hp (hpt.trans hkvk)
      unfold dict_lookup
      rw [hkept]
      rfl

/-- C5 witness: a two-entry previous map against a one-position snapshot. -/
theorem claim_C5_witness :
    (([⟨2, Side.BUY, 2500, 2490, 2520, 5⟩] : List Position).map Position.ticket).Nodup ∧
      ((∃ e ∈ (check_closed_positions 100 none
          [(1, ⟨1, Side.BUY, 2450, 2440, 2470, -12.5⟩),
           (2, ⟨2, Side.BUY, 2500, 2490, 2520, 3⟩)]
          [⟨2, Side.BUY, 2500, 2490, 2520, 5⟩]).events, e.ticket = 1) ↔
        ((∃ kv ∈ [(1, (⟨1, Side.BUY, 2450, 2440, 2470, -12.5⟩ : Position)),
           (2, ⟨2, Side.BUY, 2500, 2490, 2520, 3⟩)], kv.1 = 1) ∧
          ∀ p ∈ ([⟨2, Side.BUY, 2500, 2490, 2520, 5⟩] : List Position), p.ticket ≠ 1)) ∧
      dict_lookup (check_closed_positions 100 none
          [(1, ⟨1, Side.BUY, 2450, 2440, 2470, -12.5⟩),
           (2, ⟨2, Side.BUY, 2500, 2490, 2520, 3⟩)]
          [⟨2, Side.BUY, 2500, 2490, 2520, 5⟩]).previous_positions 2
        = ([⟨2, Side.BUY, 2500, 2490, 2520, 5⟩] : List Position).find?
            (fun p => p.ticket = 2) := by
  have h := claim_C5 100 none
    [(1, ⟨1, Side.BUY, 2450, 2440, 2470, -12.5⟩),
     (2, ⟨2, Side.BUY, 2500, 2490, 2520, 3⟩)]
    [⟨2, Side.BUY, 2500, 2490, 2520, 5⟩] (by decide)
  exact ⟨by decide, h.1 1, h.2.2 2⟩

theorem run_entry_decide_ai_called (now : ℚ) (t : EngineTimers)
    (ai : Except Unit EntryDecision) (pf : Except Unit Quote) (lot : ℚ) :
    (run_entry_decide now t ai pf lot).ai_called = true := by
  cases ai with
  | error e => rfl
  | ok d =>
    simp only [run_entry_decide]
    split_ifs
    · cases pf <;> rfl
    · rfl

theorem run_entry_decide_sl_hit (now : ℚ) (t : EngineTimers)
    (ai : Except Unit EntryDecision) (pf : Except Unit Quote) (lot : ℚ) :
    (run_entry_decide now t ai pf lot).timers.last_sl_hit = t.last_sl_hit := by
  cases ai with
  | error e => rfl
  | ok d =>
    simp only [run_entry_decide]
    split_ifs
    · cases pf <;> rfl
    · rfl

theorem bep_update_idem (bep_pips : ℚ) (q : Quote) (p : Position) :
    bep_update bep_pips q (bep_update bep_pips q p) = bep_update bep_pips q p := by
  obtain ⟨tk, sd, op, sl, tp, pr⟩ := p
  cases sd
  case BUY =>
    by_cases h1 : bep_pips ≤ (q.bid - op) * 10 ∧ sl < op
    · have houter : bep_update bep_pips q ⟨tk, Side.BUY, op, sl, tp, pr⟩ =
          ⟨tk, Side.BUY, op, op, tp, pr⟩ := by
        simp only [bep_update]
        rw [if_pos h1]
      rw [houter]
      simp only [bep_update]
      rw [if_neg (by simp : ¬(bep_pips ≤ (q.bid - op) * 10 ∧ op < op))]
    · have houter : bep_update bep_pips q ⟨tk, Side.BUY, op, sl, tp, pr⟩ =
          ⟨tk, Side.BUY, op, sl, tp, pr⟩ := by
        simp only [bep_update]
        rw [if_neg h1]
      rw [houter]
      exact houter
  case SELL =>
    by_cases h1 : bep_pips ≤ (op - q.ask) * 10 ∧ op < sl
    · have houter : bep_update bep_pips q ⟨tk, Side.SELL, op, sl, tp, pr⟩ =
          ⟨tk, Side.SELL, op, op, tp, pr⟩ := by
        simp only [bep_update]
        rw [if_pos h1]
      rw [houter]
      simp only [bep_update]
      rw [if_neg (by simp : ¬(bep_pips ≤ (op - q.ask) * 10 ∧ op < op))]
    · have houter : bep_update bep_pips q ⟨tk, Side.SELL, op, sl, tp, pr⟩ =
          ⟨tk, Side.SELL, op, sl, tp, pr⟩ := by
        simp only [bep_update]
        rw [if_neg h1]
      rw [houter]
      exact houter

/-- C8: the Auto-Break-Even controller is idempotent: applying
`_check_auto_bep` twice with the same price snapshot yields the same
stop-loss on every position as applying it once, because a position whose
stop-loss was moved to its entry price no longer satisfies the
needs-update predicate. -/
theorem claim_C8 (bep_pips : ℚ) (q : Quote) (positions : List Position) :
    check_auto_bep bep_pips q (check_auto_bep bep_pips q positions) =
      check_auto_bep bep_pips q positions := by
  unfold check_auto_bep
  rw [List.map_map]
  induction positions with
  | nil => rfl
  | cons p rest ih =>
    simp only [List.map_cons, List.cons.injEq]
    exact ⟨bep_update_idem bep_pips q p, ih⟩

/-- C9: `_get_dynamic_lot` returns exactly the configured base lot whenever
an internal step raises (the growth-ledger read or the account-info fetch),
and otherwise computes the growth-scaled lot, so a volume is always
produced and sizing degrades to the base lot on error instead of
propagating the failure. -/
theorem claim_C9 (base : ℚ) :
    (∀ account, get_dynamic_lot base (Except.error ()) account = base) ∧
      (∀ initial, get_dynamic_lot base (Except.ok initial) (Except.error ()) = base) ∧
      (∀ initial bal, get_dynamic_lot base (Except.ok initial) (Except.ok (some bal)) =
        dynamic_lot base initial bal) := by
  refine ⟨fun account => rfl, fun initial => ?_, fun initial bal => ?_⟩
  · simp only [get_dynamic_lot]
    split_ifs <;> rfl
  · simp only [get_dynamic_lot, dynamic_lot]
    split_ifs <;> rfl

/-- C10: in the `modify_position` request, a stop-loss or take-profit
argument that is `None` or `0` is replaced by the position's current value
of that field, so a field not given a nonzero value is left unchanged, and
an existing nonzero stop-loss or take-profit can never be cleared to `0`
through this interface. -/
theorem claim_C10 (pos : Position) (sl tp : Option ℚ) :
    (modify_position_request none tp pos).1 = pos.sl ∧
      (modify_position_request (some 0) tp pos).1 = pos.sl ∧
      (∀ v : ℚ, v ≠ 0 → (modify_position_request (some v) tp pos).1 = v) ∧
      (modify_position_request sl none pos).2 = pos.tp ∧
      (modify_position_request sl (some 0) pos).2 = pos.tp ∧
      (∀ v : ℚ, v ≠ 0 → (modify_position_request sl (some v) pos).2 = v) ∧
      (pos.sl ≠ 0 → (modify_position_request sl tp pos).1 ≠ 0) ∧
      (pos.tp ≠ 0 → (modify_position_request sl tp pos).2 ≠ 0) := by
  refine ⟨rfl, by simp [modify_position_request, py_or], ?_, rfl,
    by simp [modify_position_request, py_or], ?_, ?_, ?_⟩
  · intro v hv
    simp [modify_position_request, py_or, hv]
  · intro v hv
    simp [modify_position_request, py_or, hv]
  · intro h
    cases sl with
    | none => exact h
    | some v =>
      simp only [modify_position_request, py_or]
      split_ifs with hv
      · exact h
      · exact hv
  · intro h
    cases tp with
    | none => exact h
    | some v =>
      simp only [modify_position_request, py_or]
      split_ifs with hv
      · exact h
      · exact hv

/-- C10 witness: concrete modify requests against a position with
SL 2490 and TP 2510. -/
theorem claim_C10_witness :
    (modify_position_request none (some 0)
        ⟨7, Side.BUY, 2500, 2490, 2510, 1⟩).1 = 2490 ∧
      (modify_position_request (some 0) (some 0)
        ⟨7, Side.BUY, 2500, 2490, 2510, 1⟩).1 = 2490 ∧
      (modify_position_request (some 2489) (some 0)
        ⟨7, Side.BUY, 2500, 2490, 2510, 1⟩).1 = 2489 ∧
      (modify_position_request (some 2489) (some 0)
        ⟨7, Side.BUY, 2500, 2490, 2510, 1⟩).2 = 2510 ∧
      (modify_position_request (some 2489) (some 0)
        ⟨7, Side.BUY, 2500, 2490, 2510, 1⟩).1 ≠ 0 ∧
      (modify_position_request (some 2489) (some 0)
        ⟨7, Side.BUY, 2500, 2490, 2510, 1⟩).2 ≠ 0 := by
  have h := claim_C10 ⟨7, Side.BUY, 2500, 2490, 2510, 1⟩ (some 2489) (some 0)
  exact ⟨h.1, h.2.1, h.2.2.1 2489 (by norm_num), h.2.2.2.2.1,
    h.2.2.2.2.2.2.1 (by norm_num), h.2.2.2.2.2.2.2 (by norm_num)⟩

/-- C4 (amended): for balances `current ≥ initial > 0` the sizing core uses
`timesDoubled = ⌊log₂ (current / initial)⌋` (characterised by the power
bounds below) and returns `round2 (base * 1.3 ^ timesDoubled)`; the count is
`0` when `initial ≤ 0` or `current < initial`; the result is non-decreasing
in the current balance; and it never falls below the base size provided the
base size is a whole multiple of `0.01` (for other bases the two-decimal
rounding can return less than the base, see the counterexample). -/
theorem claim_C4_amended (base initial : ℚ) (hbase : 0 ≤ base) :
    (∀ current, 0 < initial → initial ≤ current →
        ((2 : ℚ) ^ timesDoubled initial current ≤ current / initial ∧
          current / initial < 2 ^ (timesDoubled initial current + 1)) ∧
        dynamic_lot base initial current =
          round2 (base * (13 / 10) ^ timesDoubled initial current)) ∧
      (∀ current, initial ≤ 0 ∨ current < initial →
        timesDoubled initial current = 0) ∧
      (∀ c1 c2, c1 ≤ c2 → dynamic_lot base initial c1 ≤ dynamic_lot base initial c2) ∧
      (∀ k : ℤ, base = (k : ℚ) / 100 →
        ∀ current, base ≤ dynamic_lot base initial current) := by
  have hpow_one : ∀ t : ℕ, (1 : ℚ) ≤ (13 / 10) ^ t := by
    intro t
    calc (1 : ℚ) = 1 ^ t := (one_pow t).symm
      _ ≤ (13 / 10) ^ t := pow_le_pow_left₀ (by norm_num) (by norm_num) t
  refine ⟨?_, ?_, ?_, ?_⟩
  · intro current hi hc
    refine ⟨timesDoubled_bounds hi hc, ?_⟩
    unfold dynamic_lot
    rw [if_neg (not_le.mpr hi)]
  · intro current h
    unfold timesDoubled
    rw [if_neg]
    rintro ⟨h1, h2⟩
    rcases h with h | h
    · exact absurd h1 (not_lt.mpr h)
    · exact absurd h2 (not_le.mpr h)
  · intro c1 c2 h
    unfold dynamic_lot
    split_ifs
    · exact le_refl base
    · apply round2_mono
      apply mul_le_mul_of_nonneg_left _ hbase
      exact pow_le_pow_right₀ (by norm_num) (timesDoubled_mono initial h)
  · intro k hk current
    unfold dynamic_lot
    split_ifs
    · exact le_refl base
    · calc base = round2 base := by rw [hk, round2_cent]
        _ ≤ round2 (base * (13 / 10) ^ timesDoubled initial current) := by
          apply round2_mono
          exact le_mul_of_one_le_right hbase (hpow_one _)

/-- C4 counterexample: with base lot `0.011`, initial balance `1` and
current balance `1` (so `c ≥ i > 0` and `timesDoubled = 0`), the code
returns `round(0.011, 2) = 0.01`, strictly below the base size, refuting
"never returns a value below baseSize" as stated. -/
theorem claim_C4_counterexample :
    dynamic_lot (11 / 1000) 1 1 < 11 / 1000 := by
  have htd : timesDoubled 1 1 = 0 := by
    unfold timesDoubled
    rw [if_pos ⟨one_pos, le_refl (1 : ℚ)⟩]
    norm_num
  have h2 : (100 : ℚ) * (11 / 1000 * (13 / 10) ^ timesDoubled 1 1) = 11 / 10 := by
    rw [htd]
    norm_num
  have hf : ⌊(11 / 10 : ℚ)⌋ = 1 := by
    rw [Int.floor_eq_iff]
    norm_num
  have hfr : Int.fract (11 / 10 : ℚ) = 1 / 10 := by
    unfold Int.fract
    rw [hf]
    norm_num
  unfold dynamic_lot
  rw [if_neg (by norm_num : ¬(1 : ℚ) ≤ 0)]
  unfold round2
  rw [h2]
  unfold roundHalfEven
  rw [hfr, hf]
  rw [if_pos (by norm_num : (1 / 10 : ℚ) < 1 / 2)]
  norm_num

/-- C4 witness: base lot `0.01`, initial balance `100`. -/
theorem claim_C4_witness :
    (0 : ℚ) ≤ 1 / 100 ∧
      dynamic_lot (1 / 100) 100 150 ≤ dynamic_lot (1 / 100) 100 450 ∧
      (1 : ℚ) / 100 ≤ dynamic_lot (1 / 100) 100 450 ∧
      timesDoubled 100 50 = 0 ∧
      ((2 : ℚ) ^ timesDoubled 100 450 ≤ 450 / 100 ∧
        (450 : ℚ) / 100 < 2 ^ (timesDoubled 100 450 + 1)) := by
  have h := claim_C4_amended (1 / 100) 100 (by norm_num)
  exact ⟨by norm_num, h.2.2.1 150 450 (by norm_num),
    h.2.2.2 1 (by norm_num) 450, h.2.1 50 (Or.inr (by norm_num)),
    (h.1 450 (by norm_num) (by norm_num)).1⟩

/-- C6: when a tracked position closes with negative last-known profit, the
detector arms the cooldown at the current time; every `_run_entry` call
within `cooldownMinutes` of that instant returns unchanged without
consulting the decision service; once the window has elapsed, the gate
clears `_last_sl_hit` and the decision service is consulted. -/
theorem claim_C6 (t0 now : ℚ) (ls : Option ℚ) (prev : List (ℕ × Position))
    (cur : List Position) (lec : Option ℚ) (ai : Except Unit EntryDecision)
    (price_fetch : Except Unit Quote) (lot : ℚ)
    (hclosed : ∃ kv ∈ prev, kv.2.profit < 0 ∧ ∀ p ∈ cur, p.ticket ≠ kv.1) :
    (check_closed_positions t0 ls prev cur).last_sl_hit = some t0 ∧
      (now - t0 < sl_cooldown_minutes * 60 →
        run_entry now ⟨some t0, lec⟩ ai price_fetch lot =
          { timers := ⟨some t0, lec⟩, ai_called := false, order := none }) ∧
      (sl_cooldown_minutes * 60 ≤ now - t0 →
        (run_entry now ⟨some t0, lec⟩ ai price_fetch lot).ai_called = true ∧
          (run_entry now ⟨some t0, lec⟩ ai price_fetch lot).timers.last_sl_hit
            = none) := by
  obtain ⟨kv, hkv, hneg, habs⟩ := hclosed
  refine ⟨?_, ?_, ?_⟩
  · simp only [check_closed_positions]
    split
    · rfl
    · next hfalse =>
      exfalso
      apply hfalse
      apply List.any_eq_true.mpr
      refine ⟨_, List.mem_map.mpr
        ⟨kv, List.mem_filter.mpr ⟨hkv, decide_eq_true ?_⟩, rfl⟩, ?_⟩
      · intro hmem
        rcases List.mem_map.mp hmem with ⟨p, hp, hpt⟩
        exact habs p hp hpt
      · simp [not_le.mpr hneg]
  · intro hlt
    simp only [run_entry]
    rw [if_pos hlt]
  · intro hge
    have hnlt : ¬(now - t0 < sl_cooldown_minutes * 60) := not_lt.mpr hge
    simp only [run_entry]
    rw [if_neg hnlt]
    exact ⟨run_entry_decide_ai_called now _ ai price_fetch lot,
      run_entry_decide_sl_hit now _ ai price_fetch lot⟩

/-- C6 witness: a stop-loss close at time 0 arms the gate; entry at 100
seconds is blocked, entry at 400 seconds runs and clears the gate. -/
theorem claim_C6_witness :
    (check_closed_positions 0 none
        [(1, ⟨1, Side.BUY, 2450, 2440, 2470, -12.5⟩)] []).last_sl_hit = some 0 ∧
      run_entry 100 ⟨some 0, none⟩ (Except.error ()) mt5_get_price (1 / 100) =
        { timers := ⟨some 0, none⟩, ai_called := false, order := none } ∧
      (run_entry 400 ⟨some 0, none⟩ (Except.error ()) mt5_get_price
        (1 / 100)).ai_called = true ∧
      (run_entry 400 ⟨some 0, none⟩ (Except.error ()) mt5_get_price
        (1 / 100)).timers.last_sl_hit = none := by
  have h1 := claim_C6 0 100 none [(1, ⟨1, Side.BUY, 2450, 2440, 2470, -12.5⟩)] []
    none (Except.error ()) mt5_get_price (1 / 100)
    ⟨(1, ⟨1, Side.BUY, 2450, 2440, 2470, -12.5⟩), by simp, by norm_num, by simp⟩
  have h2 := claim_C6 0 400 none [(1, ⟨1, Side.BUY, 2450, 2440, 2470, -12.5⟩)] []
    none (Except.error ()) mt5_get_price (1 / 100)
    ⟨(1, ⟨1, Side.BUY, 2450, 2440, 2470, -12.5⟩), by simp, by norm_num, by simp⟩
  refine ⟨h1.1, h1.2.1 (by norm_num [sl_cooldown_minutes]), ?_, ?_⟩
  · exact (h2.2.2 (by norm_num [sl_cooldown_minutes])).1
  · exact (h2.2.2 (by norm_num [sl_cooldown_minutes])).2

/-- C2 counterexample: with the cooldown clear (preconditions of the claim
satisfied), a decision-service error makes `_run_entry` return at lines
272-274 before reaching the update at line 335, so the last-entry-check
timestamp stays `none` instead of becoming the current time `1000` — the
entry check therefore re-runs on the next tick. -/
theorem claim_C2_counterexample :
    (run_entry 1000 ⟨none, none⟩ (Except.error ()) mt5_get_price
        (1 / 100)).ai_called = true ∧
      (run_entry 1000 ⟨none, none⟩ (Except.error ()) mt5_get_price
        (1 / 100)).timers.last_entry_check = none ∧
      (run_entry 1000 ⟨none, none⟩ (Except.error ()) mt5_get_price
        (1 / 100)).timers.last_entry_check ≠ some 1000 := by
  refine ⟨rfl, rfl, ?_⟩
  simp only [run_entry, run_entry_decide]
  exact fun h => Option.noConfusion h

/-- C2 (amended): under the claim's preconditions, `_run_entry` updates the
last-entry-check timestamp at the end when the decision is `WAIT` (or
unrecognised) or the confidence is below 60 — including when a later order
placement would fail, since the update does not depend on the placement
result — but it does NOT update the timestamp when the decision service
returns an error (early return at lines 272-274), nor on the BUY/SELL
high-confidence path with the shipped broker client, where the undefined
`get_price` attribute raises before the update; in those cases a failing
decision service does cause the entry check to re-run on following ticks. -/
theorem claim_C2_amended (now : ℚ) (lec : Option ℚ)
    (price_fetch : Except Unit Quote) (lot : ℚ) :
    ((run_entry now ⟨none, lec⟩ (Except.error ()) price_fetch
        lot).timers.last_entry_check = lec) ∧
      (∀ d : EntryDecision,
        ¬((d.decision = Decision.BUY ∨ d.decision = Decision.SELL) ∧
            60 ≤ d.confidence) →
        (run_entry now ⟨none, lec⟩ (Except.ok d) price_fetch
          lot).timers.last_entry_check = some now) ∧
      (∀ d : EntryDecision,
        (d.decision = Decision.BUY ∨ d.decision = Decision.SELL) →
        60 ≤ d.confidence →
        (run_entry now ⟨none, lec⟩ (Except.ok d) mt5_get_price
          lot).timers.last_entry_check = lec) := by
  refine ⟨rfl, ?_, ?_⟩
  · intro d hd
    simp only [run_entry, run_entry_decide]
    rw [if_neg hd]
  · intro d h1 h2
    simp only [run_entry, run_entry_decide, mt5_get_price]
    rw [if_pos ⟨h1, h2⟩]

/-- C2 witness: a WAIT decision at time 1000 marks the interval as checked;
a high-confidence BUY leaves the stale timestamp in place. -/
theorem claim_C2_witness :
    (run_entry 1000 ⟨none, some 5⟩
        (Except.ok ⟨Decision.WAIT, none, none, 80⟩) mt5_get_price
        (1 / 100)).timers.last_entry_check = some 1000 ∧
      (run_entry 1000 ⟨none, some 5⟩
        (Except.ok ⟨Decision.BUY, none, none, 75⟩) mt5_get_price
        (1 / 100)).timers.last_entry_check = some 5 := by
  have h := claim_C2_amended 1000 (some 5) mt5_get_price (1 / 100)
  exact ⟨h.2.1 ⟨Decision.WAIT, none, none, 80⟩ (by simp),
    h.2.2 ⟨Decision.BUY, none, none, 75⟩ (Or.inl rfl) (by norm_num)⟩

/-- C3 (code bug): at the spec's scenario-1 input — flat account, cooldown
clear, decision service returning BUY with confidence 75 and a null
stop-loss — the engine places no order at all: the call
`self.mt5_client.get_price(symbol)` at trading_engine.py line 289 raises
`AttributeError` because `MT5Client` defines no `get_price` method, and the
`except` at line 337 swallows it (also skipping the timestamp update). The
clamp logic the claim describes is present at lines 290-301 but
unreachable; evaluated directly on a live ask of `2500.00` and a missing
proposed SL, it would yield exactly `2494.00`. -/
theorem claim_C3_bug :
    (run_entry 0 ⟨none, none⟩
        (Except.ok ⟨Decision.BUY, none, none, 75⟩) mt5_get_price
        (1 / 100)).order = none ∧
      (run_entry 0 ⟨none, none⟩
        (Except.ok ⟨Decision.BUY, none, none, 75⟩) mt5_get_price
        (1 / 100)).timers.last_entry_check = none ∧
      clamp_sl Decision.BUY ⟨2499.8, 2500⟩ none = 2494 := by
  refine ⟨?_, ?_, ?_⟩
  · simp only [run_entry, run_entry_decide, mt5_get_price]
    rw [if_pos ⟨Or.inl trivial, by norm_num⟩]
  · simp only [run_entry, run_entry_decide, mt5_get_price]
    rw [if_pos ⟨Or.inl trivial, by norm_num⟩]
  · simp only [clamp_sl]
    norm_num

/-- C7: for a non-empty position list below the cap, the DCA controller
takes the first position as reference; its expected count equals
`min(maxPositions, 1 + ⌊|displacement in pips| / 20⌋)` when the absolute
displacement (entry to the market price on the position's side, 1 pip =
0.1 price units) is at least 20 pips and `1` otherwise; exactly one
additional order is issued precisely when the current count is below the
expected count, and that order is same-direction at the given lot with the
reference position's SL and TP. -/
theorem claim_C7 (max_positions : ℕ) (lot : ℚ) (first : Position)
    (rest : List Position) (q : Quote)
    (hlen : (first :: rest).length < max_positions) :
    (dca_expected max_positions first q =
        if 20 ≤ |(match first.side with
            | Side.BUY => q.bid
            | Side.SELL => q.ask) - first.open_price| * 10 then
          min max_positions (1 + (⌊(|(match first.side with
            | Side.BUY => q.bid
            | Side.SELL => q.ask) - first.open_price| * 10) / 20⌋).toNat)
        else 1) ∧
      ((check_dca_averaging max_positions lot (first :: rest) q).isSome ↔
        (first :: rest).length < dca_expected max_positions first q) ∧
      (∀ o, check_dca_averaging max_positions lot (first :: rest) q = some o →
        o.order_type = first.side.toDecision ∧ o.volume = lot ∧
          o.sl = first.sl ∧ o.tp = some first.tp) := by
  have hcap : 1 ≤ max_positions := by
    have : 1 ≤ (first :: rest).length := by simp
    omega
  refine ⟨?_, ?_, ?_⟩
  · unfold dca_expected
    cases hs : first.side
    · simp only []
      have habs : |(q.bid - first.open_price) * 10| =
          |q.bid - first.open_price| * 10 := by
        rw [abs_mul]
        norm_num
      rw [habs]
      split_ifs
      · exact min_comm _ _
      · exact Nat.min_eq_left hcap
    · simp only []
      have habs : |(first.open_price - q.ask) * 10| =
          |q.ask - first.open_price| * 10 := by
        rw [abs_mul, abs_sub_comm]
        norm_num
      rw [habs]
      split_ifs
      · exact min_comm _ _
      · exact Nat.min_eq_left hcap
  · simp only [check_dca_averaging]
    split_ifs with h
    · exact iff_of_true rfl h
    · exact iff_of_false (by simp) h
  · intro o ho
    simp only [check_dca_averaging] at ho
    split_ifs at ho
    cases ho
    exact ⟨rfl, rfl, rfl, rfl⟩

/-- C7 witness: scenario 3 of the spec — one open BUY at 2500 with the bid
displaced 45 pips in its favour, cap 3: the expected count is 3 and an
order is issued. -/
theorem claim_C7_witness :
    (([⟨1, Side.BUY, 2500, 2490, 2520, 0⟩] : List Position).length < 3) ∧
      ((check_dca_averaging 3 (1 / 100)
          [⟨1, Side.BUY, 2500, 2490, 2520, 0⟩] ⟨2504.5, 2505⟩).isSome ↔
        ([⟨1, Side.BUY, 2500, 2490, 2520, 0⟩] : List Position).length <
          dca_expected 3 ⟨1, Side.BUY, 2500, 2490, 2520, 0⟩ ⟨2504.5, 2505⟩) ∧
      dca_expected 3 ⟨1, Side.BUY, 2500, 2490, 2520, 0⟩ ⟨2504.5, 2505⟩ = 3 := by
  refine ⟨by simp, (claim_C7 3 (1 / 100) ⟨1, Side.BUY, 2500, 2490, 2520, 0⟩ []
    ⟨2504.5, 2505⟩ (by simp)).2.1, ?_⟩
  have h := (claim_C7 3 (1 / 100) ⟨1, Side.BUY, 2500, 2490, 2520, 0⟩ []
    ⟨2504.5, 2505⟩ (by simp)).1
  rw [h]
  norm_num
  rw [show |(9 : ℚ) / 2| = 9 / 2 from abs_of_pos (by norm_num)]
  rw [if_pos (by norm_num : (20 : ℚ) ≤ 9 / 2 * 10)]
  rw [show ⌊(9 : ℚ) / 2 * 10 / 20⌋ = 2 from by rw [Int.floor_eq_iff]; norm_num]
  rfl

theorem guardian_fold_le (max_positions : ℕ) (acts : List GuardianAction) :
    ∀ live : ℕ, live ≤ max_positions →
      acts.foldl (guardian_count_step max_positions) live ≤ max_positions := by
  induction acts with
  | nil => intro live h; simpa using h
  | cons a rest ih =>
    intro live h
    simp only [List.foldl_cons]
    apply ih
    cases a <;> simp only [guardian_count_step] <;> (try split_ifs) <;> omega

theorem guardian_fold_le_self (max_positions : ℕ) :
    ∀ acts : List GuardianAction, GuardianAction.ADD_DCA ∉ acts →
      ∀ live : ℕ, acts.foldl (guardian_count_step max_positions) live ≤ live := by
  intro acts
  induction acts with
  | nil => intro _ live; simp
  | cons a rest ih =>
    intro hno live
    simp only [List.foldl_cons]
    have hna : a ≠ GuardianAction.ADD_DCA :=
      fun h => hno (h ▸ List.mem_cons_self a rest)
    have hrest : GuardianAction.ADD_DCA ∉ rest :=
      fun h => hno (List.mem_cons_of_mem a h)
    have hstep : guardian_count_step max_positions live a ≤ live := by
      cases a with
      | ADD_DCA => exact absurd rfl hna
      | CLOSE => simp only [guardian_count_step]; omega
      | HOLD => exact le_refl live
      | MODIFY => exact le_refl live
    exact le_trans (ih hrest _) hstep

/-- C1 counterexample: one tick starting from a snapshot of two positions
with cap 3: the guardian's ADD_DCA (checked against the fresh count, 2 < 3)
brings the live count to 3, and the DCA controller — whose gate at
trading_engine.py line 222 and internal count at line 476 still use the
two-element tick-start snapshot — then places a further order (expected
count 3 at 45 pips displacement, 2 < 3), ending the tick at 4 open
positions, strictly above `max_positions = 3`. -/
theorem claim_C1_counterexample :
    tick_position_count 3
        [⟨1, Side.BUY, 2500, 2494, 2520, 10⟩, ⟨2, Side.BUY, 2500, 2494, 2520, 10⟩]
        ⟨2504.5, 2504.8⟩ true [GuardianAction.ADD_DCA, GuardianAction.HOLD]
        (1 / 100) = 4 ∧
      3 < tick_position_count 3
        [⟨1, Side.BUY, 2500, 2494, 2520, 10⟩, ⟨2, Side.BUY, 2500, 2494, 2520, 10⟩]
        ⟨2504.5, 2504.8⟩ true [GuardianAction.ADD_DCA, GuardianAction.HOLD]
        (1 / 100) := by
  have h : tick_position_count 3
      [⟨1, Side.BUY, 2500, 2494, 2520, 10⟩, ⟨2, Side.BUY, 2500, 2494, 2520, 10⟩]
      ⟨2504.5, 2504.8⟩ true [GuardianAction.ADD_DCA, GuardianAction.HOLD]
      (1 / 100) = 4 := by
    simp only [tick_position_count, check_dca_averaging, dca_expected,
      guardian_count_step, List.foldl_cons, List.foldl_nil]
    norm_num
    rfl
  exact ⟨h, by omega⟩

/-- C1 (amended): each order placement that adds to an existing position
set is individually preceded by a cap check, but the two checks read
different counts — the guardian's ADD_DCA checks a freshly fetched count
while the DCA controller checks the tick-start snapshot count — so from a
snapshot within the cap a single tick can end at most one position above
`max_positions`, and it stays within the cap whenever the guardian issues
no ADD_DCA order in that tick. -/
theorem claim_C1_amended (max_positions : ℕ) (snapshot : List Position)
    (q : Quote) (guardian_due : Bool) (guardian_actions : List GuardianAction)
    (lot : ℚ) (hsnap : snapshot.length ≤ max_positions) :
    tick_position_count max_positions snapshot q guardian_due guardian_actions lot
        ≤ max_positions + 1 ∧
      (GuardianAction.ADD_DCA ∉ guardian_actions →
        tick_position_count max_positions snapshot q guardian_due
          guardian_actions lot ≤ max_positions) := by
  have hA : (if guardian_due = true ∧ 0 < snapshot.length then
      guardian_actions.foldl (guardian_count_step max_positions) snapshot.length
    else snapshot.length) ≤ max_positions := by
    split_ifs
    · exact guardian_fold_le max_positions guardian_actions snapshot.length hsnap
    · exact hsnap
  have hD : (if (check_dca_averaging max_positions lot snapshot q).isSome
      then 1 else 0) ≤ 1 := by
    split_ifs <;> omega
  constructor
  · simp only [tick_position_count]
    by_cases hP : 0 < snapshot.length ∧ snapshot.length < max_positions
    · rw [if_pos hP]
      omega
    · rw [if_neg hP]
      omega
  · intro hno
    have hA2 : (if guardian_due = true ∧ 0 < snapshot.length then
        guardian_actions.foldl (guardian_count_step max_positions) snapshot.length
      else snapshot.length) ≤ snapshot.length := by
      split_ifs
      · exact guardian_fold_le_self max_positions guardian_actions hno
          snapshot.length
      · exact le_refl _
    simp only [tick_position_count]
    by_cases hP : 0 < snapshot.length ∧ snapshot.length < max_positions
    · have hP2 := hP.2
      rw [if_pos hP]
      omega
    · rw [if_neg hP]
      omega

/-- C1 witness: a guardian tick with no ADD_DCA stays within the cap. -/
theorem claim_C1_witness :
    (([⟨1, Side.BUY, 2500, 2494, 2520, 10⟩, ⟨2, Side.BUY, 2500, 2494, 2520, 10⟩] :
        List Position).length ≤ 3) ∧
      tick_position_count 3
        [⟨1, Side.BUY, 2500, 2494, 2520, 10⟩, ⟨2, Side.BUY, 2500, 2494, 2520, 10⟩]
        ⟨2504.5, 2504.8⟩ true [GuardianAction.HOLD, GuardianAction.HOLD]
        (1 / 100) ≤ 4 ∧
      tick_position_count 3
        [⟨1, Side.BUY, 2500, 2494, 2520, 10⟩, ⟨2, Side.BUY, 2500, 2494, 2520, 10⟩]
        ⟨2504.5, 2504.8⟩ true [GuardianAction.HOLD, GuardianAction.HOLD]
        (1 / 100) ≤ 3 := by
  have h := claim_C1_amended 3
    [⟨1, Side.BUY, 2500, 2494, 2520, 10⟩, ⟨2, Side.BUY, 2500, 2494, 2520, 10⟩]
    ⟨2504.5, 2504.8⟩ true [GuardianAction.HOLD, GuardianAction.HOLD] (1 / 100)
    (by simp)
  exact ⟨by simp, h.1, h.2 (by simp)⟩

end Autocut
